import Mathlib

/-!
# Verification of the embedded log-structured query engine

Shallow embedding of the `Database<T>` class of the repository
(`src/unnamed/part_001`, the full variant with sort and projection options).

Modelling conventions:
* A JavaScript record is an association list of field name / value pairs,
  in property-insertion order (the order `Object.entries` yields).
* JavaScript values occurring in the data files are numbers (integers in
  this repository's data), strings and booleans: type `Value`.
  A missing property access (`entry[field]` with `field` absent, or a
  missing `_id`) is JavaScript `undefined`, modelled as `Option.none`.
* Exceptions are modelled with `Except String`; an `async` method that can
  throw becomes a function into `Except String _`.
* `JSON.parse` is an opaque external codec; `loadDatabase` and `find` take
  the decoder `dec : String → Except String Rec` as a parameter.
* JavaScript `>` on two numbers or two strings is the ordinary order; on
  mixed operands it coerces via `ToNumber` (booleans to 0/1, strings parsed
  as numerals, `NaN` making the comparison false).  The embedding models
  `ToNumber` on integer numerals; numeral strings denoting non-integers lie
  outside the modelled value domain and are mapped to `none` (NaN-like).
  `a < b` is the mirrored relational comparison `b > a`.
-/

set_option autoImplicit false

namespace TsDb

/-- A JavaScript primitive value as stored in the database records. -/
inductive Value where
  | num (n : Int)
  | str (s : String)
  | bool (b : Bool)
deriving DecidableEq, Repr

/-- A database record: `Object.entries` view of the parsed JSON object. -/
abbrev Rec := List (String × Value)

/-- JavaScript `text.split(sep)` for a one-character separator
(`String.prototype.split`): `""` yields `[""]`, a trailing separator
yields a trailing empty string. -/
def jsSplit (sep : Char) (s : String) : List String :=
  (s.data.splitOn sep).map List.asString

/-- JavaScript `text.toLowerCase()` (character-wise lowering; the data of
this repository is ASCII). -/
def jsToLower (s : String) : String :=
  (s.data.map Char.toLower).asString

/-- Lexicographic `<` on character lists, the order JavaScript uses to
compare two strings code unit by code unit. -/
def charListLt : List Char → List Char → Bool
  | [], [] => false
  | [], _ :: _ => true
  | _ :: _, [] => false
  | a :: as, b :: bs => if a < b then true else if b < a then false else charListLt as bs

/-- `String.prototype.trim` on the character list. -/
def trimChars (l : List Char) : List Char :=
  ((l.dropWhile Char.isWhitespace).reverse.dropWhile Char.isWhitespace).reverse

/-- The numeric value of a non-empty all-digit character list (`none`
otherwise). -/
def digitsToNat (l : List Char) : Option Nat :=
  if l.isEmpty then none
  else if l.all Char.isDigit then some (l.foldl (fun n c => n * 10 + (c.toNat - 48)) 0)
  else none

/-- First-occurrence association lookup, i.e. JavaScript property access
`obj[key]` (`none` = `undefined`). -/
def lookupA {β : Type} : List (String × β) → String → Option β
  | [], _ => none
  | p :: rest, k => if p.1 = k then some p.2 else lookupA rest k

/-- The key list of a record (`Object.keys`). -/
def recKeys (r : Rec) : List String := r.map Prod.fst

/-- Property access `entry[field]`. -/
def getField (r : Rec) (k : String) : Option Value := lookupA r k

/-- `entry._id` (undefined when the record has no `_id` property). -/
def jsId (r : Rec) : Option Value := getField r "_id"

/-- `ToNumber` on a string (JS `Number(s)`), restricted to the integer
numerals that occur in this repository's data; `none` plays NaN. -/
def jsStrToInt (s : String) : Option Int :=
  let t := trimChars s.data
  if t.isEmpty then some 0
  else if t.head? = some '-' then (digitsToNat (t.drop 1)).map (fun n => -(n : Int))
  else if t.head? = some '+' then (digitsToNat (t.drop 1)).map (fun n => (n : Int))
  else (digitsToNat t).map (fun n => (n : Int))

/-- `ToNumber` on a primitive value (`none` = NaN). -/
def jsToNum : Value → Option Int
  | .num n => some n
  | .bool b => some (if b then 1 else 0)
  | .str s => jsStrToInt s

/-- JavaScript `a > b` on primitive values: two strings compare
lexicographically, anything else via `ToNumber` (false on NaN). -/
def valueGtB : Value → Value → Bool
  | .num a, .num b => a > b
  | .str a, .str b => charListLt b.data a.data
  | a, b =>
    match jsToNum a, jsToNum b with
    | some x, some y => x > y
    | _, _ => false

/-- `entry[field] > v` where the field may be absent (`undefined > v` is
false, NaN semantics). -/
def optGtB (fv : Option Value) (v : Value) : Bool :=
  match fv with
  | some x => valueGtB x v
  | none => false

/-- `entry[field] < v`: the mirrored relational comparison. -/
def optLtB (fv : Option Value) (v : Value) : Bool :=
  match fv with
  | some x => valueGtB v x
  | none => false

/-- A comparison value inside a sub-query: a scalar for `$eq`/`$gt`/`$lt`,
an array for `$in` (the shapes the TypeScript types admit). -/
inductive CmpVal where
  | scalar (v : Value)
  | array (vs : List Value)
deriving DecidableEq, Repr

/-- A field sub-query object such as the JS `($gt: 18)` object:
its `Object.entries` view. -/
abbrev SubQ := List (String × CmpVal)

/-- `$eq`: `(a, b) => a === b` applied to `(entry[field], valueToCompare)`.
Strict equality never throws; against an array literal it is reference
inequality, hence false. -/
def jsEqOp (fv : Option Value) (c : CmpVal) : Except String Bool :=
  match c with
  | .scalar v => .ok (fv = some v)
  | .array _ => .ok false

/-- `$gt`: `(a, b) => a > b`.  The array-operand shape is excluded by the
TypeScript types; JS would coerce the array to a primitive, a corner
outside the modelled domain, rendered false. -/
def jsGtOp (fv : Option Value) (c : CmpVal) : Except String Bool :=
  match c with
  | .scalar v => .ok (optGtB fv v)
  | .array _ => .ok false

/-- `$lt`: `(a, b) => a < b`, mirrored comparison. -/
def jsLtOp (fv : Option Value) (c : CmpVal) : Except String Bool :=
  match c with
  | .scalar v => .ok (optLtB fv v)
  | .array _ => .ok false

/-- `$in`: `(v, arr) => arr.includes(v)`.  Calling `.includes` on a
non-array comparison value throws a `TypeError`. -/
def jsInOp (fv : Option Value) (c : CmpVal) : Except String Bool :=
  match c with
  | .array vs =>
    .ok (match fv with
         | some v => vs.contains v
         | none => false)
  | .scalar _ => .error "TypeError: valueToCompare.includes is not a function"

/-- The merged operation table `simpleOperations` (`queryOperations` plus
`arrayOperations`); `none` models an `undefined` table entry. -/
def simpleOperations (op : String) : Option (Option Value → CmpVal → Except String Bool) :=
  if op = "$eq" then some jsEqOp
  else if op = "$gt" then some jsGtOp
  else if op = "$lt" then some jsLtOp
  else if op = "$in" then some jsInOp
  else none

/-- `Array.prototype.map` with a function that can throw: the first
exception aborts the whole traversal. -/
def mapE {α β : Type} (f : α → Except String β) : List α → Except String (List β)
  | [] => .ok []
  | x :: xs =>
    match f x with
    | .error e => .error e
    | .ok y =>
      match mapE f xs with
      | .error e => .error e
      | .ok ys => .ok (y :: ys)

/-- `Array.prototype.filter` with a predicate that can throw: the first
exception aborts the whole traversal. -/
def filterE {α : Type} (p : α → Except String Bool) : List α → Except String (List α)
  | [] => .ok []
  | x :: xs =>
    match p x with
    | .error e => .error e
    | .ok b =>
      match filterE p xs with
      | .error e => .error e
      | .ok rest => .ok (if b then x :: rest else rest)

/-- `handleSimpleQuery(operator, subQuery, field)` over a given record
collection.  `opKey` is `Object.keys(subQuery)[0]` as computed by the
callers (`none` = `undefined` for an empty sub-query object).
`subQuery[operator] === undefined` throws `'something went wrong'`;
an operator absent from `simpleOperations` makes `filterFn` undefined and
the call a `TypeError`. -/
def handleSimpleQuery (records : List Rec) (opKey : Option String) (subQuery : SubQ)
    (field : String) : Except String (List Rec) :=
  match opKey.bind (lookupA subQuery) with
  | none => .error "something went wrong"
  | some valueToCompare =>
    match opKey.bind simpleOperations with
    | none => .error "TypeError: filterFn is not a function"
    | some filterFn =>
      filterE (fun entry => filterFn (getField entry field) valueToCompare) records

/-- `prepareText`: lowercase, then split on single spaces. -/
def prepareText (text : String) : List String := jsSplit ' ' (jsToLower text)

/-- `String(v)` as performed by `Array.prototype.join`. -/
def valueToString : Value → String
  | .num n => toString n
  | .str s => s
  | .bool b => if b then "true" else "false"

/-- The space-joined concatenation of a record's full-text-eligible field
values, as built inside `handleTextQuery`. -/
def textFieldValues (fts : List String) (entry : Rec) : String :=
  String.intercalate " " ((entry.filter (fun e => fts.contains e.1)).map (fun e => valueToString e.2))

/-- `handleTextQuery(searchQuery)`. -/
def handleTextQuery (fts : List String) (records : List Rec) (searchQuery : String) : List Rec :=
  let preparedQuery := prepareText searchQuery
  records.filter fun entry =>
    let fieldContent := prepareText (textFieldValues fts entry)
    fieldContent.any (fun word => preparedQuery.contains word)

/-- `uniteResults(finalResult, queryResult)`: append the entries of
`queryResult` whose `_id` is not among the ids of `finalResult`
(`currentIds` is computed once, before the fold). -/
def uniteResults (finalResult queryResult : List Rec) : List Rec :=
  let currentIds := finalResult.map jsId
  queryResult.foldl
    (fun res entry => if currentIds.contains (jsId entry) then res else res ++ [entry])
    finalResult

/-- `intersectResults(finalResult, queryResult)`: when the accumulator is
non-empty, keep its entries whose id also occurs in `queryResult`;
an empty accumulator is replaced by a copy of `queryResult`. -/
def intersectResults (finalResult queryResult : List Rec) : List Rec :=
  let currentIds := finalResult.map jsId
  if finalResult.length ≠ 0 then
    let commonIds := queryResult.foldl
      (fun res entry => if currentIds.contains (jsId entry) then res ++ [jsId entry] else res)
      []
    finalResult.filter (fun entry => commonIds.contains (jsId entry))
  else
    queryResult

/-- `handleSetQuery(setOperator, queryArray)`: fold every field entry of
every inner document into the accumulator by union (`$or`) or
intersection (`$and`); an exception aborts the `forEach`. -/
def handleSetQuery (records : List Rec) (setOperator : String)
    (queryArray : List (List (String × SubQ))) : Except String (List Rec) :=
  queryArray.foldlM
    (fun result setQuery =>
      setQuery.foldlM
        (fun result innerElem =>
          let fieldName := innerElem.1
          let subQuery := innerElem.2
          let operator := (subQuery.map Prod.fst).head?
          match handleSimpleQuery records operator subQuery fieldName with
          | .error e => .error e
          | .ok setQueryResult =>
            if setOperator = "$or" then .ok (uniteResults result setQueryResult)
            else if setOperator = "$and" then .ok (intersectResults result setQueryResult)
            else .error "unhandled set operator")
        result)
    []

/-- The value paired with a top-level query key, as the TypeScript union
types it: a search phrase for the `$text` key, an array of inner documents
for a set operator, a sub-query object for a field key. -/
inductive QVal where
  | text (s : String)
  | set (qs : List (List (String × SubQ)))
  | sub (sq : SubQ)
deriving DecidableEq, Repr

/-- A query document: its `Object.entries` view. -/
abbrev Query := List (String × QVal)

/-- One step of `handleQuery`'s per-field loop: resolve the entry's
operator (the sub-query object's first key) against the operation tables
and intersect the filter result into the accumulator; an operator in
neither table raises `'unhandled query operator'`. -/
def perFieldStep (records : List Rec) (result : List Rec) (elem : String × QVal) :
    Except String (List Rec) :=
  match elem.2 with
  | .sub subQuery =>
    let operator := (subQuery.map Prod.fst).head?
    if operator = some "$eq" ∨ operator = some "$gt" ∨ operator = some "$lt" then
      match handleSimpleQuery records operator subQuery elem.1 with
      | .error e => .error e
      | .ok r => .ok (intersectResults result r)
    else if operator = some "$in" then
      match handleSimpleQuery records operator subQuery elem.1 with
      | .error e => .error e
      | .ok r => .ok (intersectResults result r)
    else .error "unhandled query operator"
  | _ => .error "TypeError: sub-query is not an object"

/-- `handleQuery(queryElements)`: dispatch on the first entry's key:
`$text`, then a set operator, then a field of `records[0]`, else the
`'unhandled query format'` error.  In per-field mode every entry is a
field filter, successively intersected into the accumulator (initially
empty).  A value whose shape contradicts its key's branch would raise a
`TypeError` in JS (calling a string method / `forEach` / key traversal on
the wrong shape); the TypeScript types exclude those combinations. -/
def handleQuery (fts : List String) (records : List Rec) (queryElements : Query) :
    Except String (List Rec) :=
  match queryElements with
  | [] => .error "TypeError: queryElements[0] is undefined"
  | (key, value) :: _ =>
    if key = "$text" then
      match value with
      | .text s => .ok (handleTextQuery fts records s)
      | _ => .error "TypeError: searchQuery is not a string"
    else if key = "$and" ∨ key = "$or" then
      match value with
      | .set qs => handleSetQuery records key qs
      | _ => .error "TypeError: queryArray.forEach is not a function"
    else
      match records with
      | [] => .error "TypeError: cannot use in on undefined"
      | r0 :: _ =>
        if (recKeys r0).contains key then
          queryElements.foldlM (perFieldStep records) []
        else .error "unhandled query format"

/-- The fold body of `loadDatabase`: keep a line iff its first character is
the marker `E`, decoding the remainder of the line; a decode failure
(`JSON.parse` throw) aborts the whole load. -/
def loadRows (dec : String → Except String Rec) : List String → Except String (List Rec)
  | [] => .ok []
  | row :: rest =>
    if row.data.head? = some 'E' then
      match dec (row.drop 1) with
      | .error e => .error e
      | .ok r =>
        match loadRows dec rest with
        | .error e => .error e
        | .ok rs => .ok (r :: rs)
    else loadRows dec rest

/-- `loadDatabase()`: split the file contents on newlines and fold the
rows; `dec` is the `JSON.parse`-into-record codec, `dbContents` the text
read from the backing file. -/
def loadDatabase (dec : String → Except String Rec) (dbContents : String) :
    Except String (List Rec) :=
  loadRows dec (jsSplit '\n' dbContents)

/-- Object spread `(...a, ...b)` for unique-keyed objects: keys of `a` in
order (values overridden by `b` where present), then the keys of `b` not
in `a`. -/
def jsMerge (a b : Rec) : Rec :=
  a.map (fun p => (p.1, ((lookupA b p.1).getD p.2))) ++
    b.filter (fun p => !((a.map Prod.fst).contains p.1))

/-- The body of `getProjection`'s `map`: the singleton object for a key
present on the row (`k in row ? ([k]: row[k]) : ()`), the empty object
otherwise. -/
def pickKey (row : Rec) (k : String) : Rec :=
  match getField row k with
  | some v => [(k, v)]
  | none => []

/-- `getProjection(row, keys)`: one empty-or-singleton object per requested
key (`k in row` tested by property presence), merged by a `reduce` with no
initial value — which throws on an empty `keys` array. -/
def getProjection (row : Rec) (keys : List String) : Except String Rec :=
  let pickedValues := keys.map (pickKey row)
  match pickedValues with
  | [] => .error "TypeError: Reduce of empty array with no initial value"
  | x :: xs => .ok (xs.foldl jsMerge x)

/-- JS `valueA > valueB` inside the sort comparator, where both sides are
property accesses that may be `undefined` (any comparison with `undefined`
is false). -/
def optGtOO (a b : Option Value) : Bool :=
  match a, b with
  | some x, some y => valueGtB x y
  | _, _ => false

/-- The sort comparator built in `find` for one sort key: `direction` when
`a[field] > b[field]`, `-direction` when `a[field] < b[field]`, else 0. -/
def cmpRec (field : String) (direction : Int) (a b : Rec) : Int :=
  if optGtOO (getField a field) (getField b field) then direction
  else if optGtOO (getField b field) (getField a field) then -direction
  else 0

/-- One `result.sort(comparator)` pass.  `Array.prototype.sort` is required
to be stable; with the (antisymmetric) comparator above the stable order is
the insertion sort that puts each element before the first element it does
not compare after. -/
def jsSortPass (field : String) (direction : Int) (l : List Rec) : List Rec :=
  List.insertionSort (fun a b => cmpRec field direction a b ≤ 0) l

/-- The optional `options` argument of `find`: `Object.entries` views of
the optional `sort` and `projection` objects. -/
structure QueryOptions where
  sort : Option (List (String × Int))
  projection : Option (List String)
deriving DecidableEq, Repr

/-- `find(query, options?)` of `src/unnamed/part_001`: reload the database,
return early on an empty collection, evaluate the query (an empty query
document matches everything), then apply the successive sort passes and
the projection when requested. -/
def find (dec : String → Except String Rec) (fileText : String) (fts : List String)
    (query : Query) (options : Option QueryOptions) : Except String (List Rec) :=
  match loadDatabase dec fileText with
  | .error e => .error e
  | .ok records =>
    if records.length = 0 then .ok []
    else
      match (if query.length = 0 then .ok records else handleQuery fts records query) with
      | .error e => .error e
      | .ok result =>
        let sorted :=
          match options.bind QueryOptions.sort with
          | none => result
          | some sortSpec => sortSpec.foldl (fun res p => jsSortPass p.1 p.2 res) result
        match options.bind QueryOptions.projection with
        | none => .ok sorted
        | some fields => mapE (fun row => getProjection row fields) sorted

/-! ## Specification-side definitions

These follow the wording of the specification's laws, for comparison with
the computations the source performs. -/

/-- Spec wording: intersect two result sets by the `_id` field — the
records of the first set whose identity also occurs in the second. -/
def intersectById (a b : List Rec) : List Rec :=
  a.filter (fun r => (b.map jsId).contains (jsId r))

/-- Spec wording: at least one lowercase, space-split token of the phrase
occurs among the lowercase, space-split tokens of the space-joined
concatenation of the record's eligible field values. -/
def specTextMatch (fts : List String) (phrase : String) (entry : Rec) : Bool :=
  (prepareText phrase).any (fun tok => (prepareText (textFieldValues fts entry)).contains tok)

/-- The union the spec describes for `$or`: the first set, then the records
of the second whose identity is not present in the first. -/
def uniteById (a b : List Rec) : List Rec :=
  a ++ b.filter (fun r => !((a.map jsId).contains (jsId r)))

/-- Filtering the collection with the `gt`-`a` predicate on field `F`
independently of any query machinery. -/
def filterGt (records : List Rec) (F : String) (a : Value) : List Rec :=
  records.filter (fun e => optGtB (getField e F) a)

/-- Filtering the collection with the `lt`-`b` predicate on field `F`. -/
def filterLt (records : List Rec) (F : String) (b : Value) : List Rec :=
  records.filter (fun e => optLtB (getField e F) b)

/-- Filtering the collection with the `eq`-`a` predicate on field `F`. -/
def filterEq (records : List Rec) (F : String) (a : Value) : List Rec :=
  records.filter (fun e => getField e F = some a)

/-- The query document written `(and: [(F: (gt: a)), (F: (lt: b))])`. -/
def andGtLtQuery (F : String) (a b : Value) : Query :=
  [("$and", QVal.set [[(F, [("$gt", CmpVal.scalar a)])], [(F, [("$lt", CmpVal.scalar b)])]])]

/-- The query document written `(or: [(F: (eq: a)), (F: (eq: b))])`. -/
def orEqEqQuery (F : String) (a b : Value) : Query :=
  [("$or", QVal.set [[(F, [("$eq", CmpVal.scalar a)])], [(F, [("$eq", CmpVal.scalar b)])]])]

/-! ## Concrete data for witnesses and counterexamples -/

/-- A record with `_id` 1 and a numeric field `F`. -/
def recA : Rec := [("_id", .num 1), ("F", .num 5)]

/-- A record with `_id` 2 and a `tag` field that `recA` lacks. -/
def recB : Rec := [("_id", .num 2), ("tag", .str "x")]

/-- The first record of the spec's loading scenario. -/
def recS1 : Rec := [("_id", .num 1), ("name", .str "a"), ("tag", .str "x")]

/-- The second record of the spec's loading scenario. -/
def recS2 : Rec := [("_id", .num 2), ("name", .str "b"), ("tag", .str "y")]

/-- The JSON payload of the scenario's first line. -/
def payloadS1 : String := "\x7b\"_id\":1,\"name\":\"a\",\"tag\":\"x\"\x7d"

/-- The JSON payload of the scenario's third line. -/
def payloadS2 : String := "\x7b\"_id\":2,\"name\":\"b\",\"tag\":\"y\"\x7d"

/-- A concrete record codec standing for `JSON.parse` in the witnesses:
decodes the payloads used by the example files, fails on anything else
exactly as `JSON.parse` fails on malformed text. -/
def decEx (s : String) : Except String Rec :=
  if s = "1" then .ok recA
  else if s = "2" then .ok recB
  else if s = payloadS1 then .ok recS1
  else if s = payloadS2 then .ok recS2
  else .error "SyntaxError: Unexpected token"

/-- A one-record backing file. -/
def fileA : String := "E1"

/-- A two-record backing file (`recA` then `recB`). -/
def fileAB : String := "E1\nE2"

/-- The spec scenario's backing file: an `E` line, a `D` line, an `E`
line. -/
def fileScenario : String :=
  "E" ++ payloadS1 ++ "\nD\x7b\"_id\":1\x7d\nE" ++ payloadS2

/-- A file whose second `E` line has a malformed payload. -/
def fileBad : String := "E1\nEoops"

/-- A record carrying the spec's full-text example value. -/
def recBlue : Rec := [("_id", .num 3), ("name", .str "Blue Whale")]

example : loadDatabase decEx fileA = .ok [recA] := by rfl
example : loadDatabase decEx fileAB = .ok [recA, recB] := by rfl
example : loadDatabase decEx fileScenario = .ok [recS1, recS2] := by rfl
example : loadDatabase decEx fileBad = .error "SyntaxError: Unexpected token" := by rfl

-- C1 probe: empty gt-filter makes `$and` return the lt-filter instead of
-- the empty intersection.
example : find decEx fileA [] (andGtLtQuery "F" (.num 10) (.num 100)) none = .ok [recA] := by rfl
example : filterGt [recA] "F" (.num 10) = [] := by rfl
example : filterLt [recA] "F" (.num 100) = [recA] := by rfl

-- C2 probe.
example : find decEx fileA [] (orEqEqQuery "F" (.num 5) (.num 6)) none = .ok [recA] := by rfl

-- C5 probe: the spec's Blue Whale example.
example : handleTextQuery ["name"] [recBlue] "whale shark" = [recBlue] := by rfl
example : handleTextQuery ["name"] [recBlue] "orca" = [] := by rfl

-- C9 probe: `tag` exists on the second record but not the first.
example : find decEx fileAB [] [("tag", QVal.sub [("$eq", CmpVal.scalar (.str "x"))])] none
    = .error "unhandled query format" := by rfl

-- C10 probe: empty projection object over a non-empty result.
example : find decEx fileA [] [] (some ⟨none, some []⟩)
    = .error "TypeError: Reduce of empty array with no initial value" := by rfl
example : find decEx fileA [] [] (some ⟨none, some ["F", "zz"]⟩) = .ok [[("F", .num 5)]] := by rfl

-- C8 probe: sorting by `_id` both ways.
example : find decEx fileAB [] [] (some ⟨some [("_id", 1)], none⟩) = .ok [recA, recB] := by rfl
example : find decEx fileAB [] [] (some ⟨some [("_id", -1)], none⟩) = .ok [recB, recA] := by rfl

/-! ## General lemmas about the embedded combinators -/

theorem filterE_pure {α : Type} (p : α → Except String Bool) (q : α → Bool)
    (h : ∀ x, p x = .ok (q x)) (l : List α) : filterE p l = .ok (l.filter q) := by
  induction l with
  | nil => rfl
  | cons x xs ih =>
    rw [filterE, h x, ih, List.filter_cons]

theorem filterE_error_mem {α : Type} (p : α → Except String Bool) (l : List α) (e : String)
    (h : filterE p l = .error e) : ∃ x ∈ l, p x = .error e := by
  induction l with
  | nil => simp [filterE] at h
  | cons x xs ih =>
    rw [filterE] at h
    rcases hx : p x with ex | bx <;> rw [hx] at h
    · cases h; exact ⟨x, List.mem_cons_self .., hx⟩
    · rcases hxs : filterE p xs with exs | rest <;> rw [hxs] at h
      · cases h
        obtain ⟨y, hy, hpy⟩ := ih hxs
        exact ⟨y, List.mem_cons_of_mem _ hy, hpy⟩
      · cases h

theorem mapE_error_mem {α β : Type} (f : α → Except String β) (l : List α) (e : String)
    (h : mapE f l = .error e) : ∃ x ∈ l, f x = .error e := by
  induction l with
  | nil => simp [mapE] at h
  | cons x xs ih =>
    rw [mapE] at h
    rcases hx : f x with ex | y <;> rw [hx] at h
    · cases h; exact ⟨x, List.mem_cons_self .., hx⟩
    · rcases hxs : mapE f xs with exs | ys <;> rw [hxs] at h
      · cases h
        obtain ⟨z, hz, hfz⟩ := ih hxs
        exact ⟨z, List.mem_cons_of_mem _ hz, hfz⟩
      · cases h

theorem mapE_ok_mem {α β : Type} (f : α → Except String β) (l : List α) (out : List β)
    (h : mapE f l = .ok out) : ∀ y ∈ out, ∃ x ∈ l, f x = .ok y := by
  induction l generalizing out with
  | nil => cases h; simp
  | cons x xs ih =>
    rw [mapE] at h
    rcases hx : f x with ex | y <;> rw [hx] at h
    · cases h
    · rcases hxs : mapE f xs with exs | ys <;> rw [hxs] at h
      · cases h
      · cases h
        intro z hz
        rcases List.mem_cons.1 hz with hz | hz
        · exact ⟨x, List.mem_cons_self .., hz ▸ hx⟩
        · obtain ⟨w, hw, hfw⟩ := ih ys hxs z hz
          exact ⟨w, List.mem_cons_of_mem _ hw, hfw⟩

theorem lookupA_isSome_iff {β : Type} (r : List (String × β)) (k : String) :
    (lookupA r k).isSome ↔ k ∈ r.map Prod.fst := by
  induction r with
  | nil => simp [lookupA]
  | cons p rest ih =>
    rw [lookupA]
    by_cases hp : p.1 = k
    · simp [hp]
    · simp only [hp, if_false, List.map_cons, List.mem_cons, ih]
      constructor
      · exact Or.inr
      · rintro (h | h)
        · exact absurd h.symm hp
        · exact h

theorem mem_recKeys_iff (r : Rec) (k : String) :
    k ∈ recKeys r ↔ ∃ v, getField r k = some v := by
  rw [recKeys, ← lookupA_isSome_iff, getField, Option.isSome_iff_exists]

/-- Folding "append unless the id is already present" from any initial
accumulator appends exactly the entries whose test is false. -/
theorem foldl_skip_append {α : Type} (P : α → Bool) (init b : List α) :
    b.foldl (fun res e => if P e then res else res ++ [e]) init
      = init ++ b.filter (fun e => !P e) := by
  induction b generalizing init with
  | nil => simp
  | cons x xs ih =>
    rw [List.foldl_cons, List.filter_cons]
    cases hx : P x <;> simp [hx, ih, List.append_assoc]

/-- Membership in the id-collecting fold of `intersectResults`. -/
theorem mem_foldl_append_if {α β : Type} (P : α → Bool) (f : α → β) (b : List α)
    (init : List β) (y : β) :
    (y ∈ b.foldl (fun res e => if P e then res ++ [f e] else res) init)
      ↔ (y ∈ init ∨ ∃ e ∈ b, P e = true ∧ f e = y) := by
  induction b generalizing init with
  | nil => simp
  | cons x xs ih =>
    rw [List.foldl_cons]
    by_cases hx : P x = true
    · rw [if_pos hx, ih]
      constructor
      · rintro (h | ⟨e, he, hPe, hfe⟩)
        · rcases List.mem_append.1 h with h | h
          · exact Or.inl h
          · exact Or.inr ⟨x, List.mem_cons_self .., hx, (List.mem_singleton.1 h).symm⟩
        · exact Or.inr ⟨e, List.mem_cons_of_mem _ he, hPe, hfe⟩
      · rintro (h | ⟨e, he, hPe, hfe⟩)
        · exact Or.inl (List.mem_append.2 (Or.inl h))
        · rcases List.mem_cons.1 he with rfl | he
          · exact Or.inl (List.mem_append.2 (Or.inr (List.mem_singleton.2 hfe.symm)))
          · exact Or.inr ⟨e, he, hPe, hfe⟩
    · rw [if_neg hx, ih]
      constructor
      · rintro (h | ⟨e, he, hPe, hfe⟩)
        · exact Or.inl h
        · exact Or.inr ⟨e, List.mem_cons_of_mem _ he, hPe, hfe⟩
      · rintro (h | ⟨e, he, hPe, hfe⟩)
        · exact Or.inl h
        · rcases List.mem_cons.1 he with rfl | he
          · exact absurd hPe hx
          · exact Or.inr ⟨e, he, hPe, hfe⟩

theorem uniteResults_eq (a b : List Rec) : uniteResults a b = uniteById a b := by
  rw [uniteResults, uniteById]
  exact foldl_skip_append _ a b

theorem intersectResults_nil (b : List Rec) : intersectResults [] b = b := by
  simp [intersectResults]

/-- The contains test against the collected common ids, for an entry of the
accumulator, agrees with the contains test against the other side's ids. -/
theorem contains_commonIds (a b : List Rec) (e : Rec) (he : e ∈ a) :
    ((b.foldl (fun res entry =>
        if (a.map jsId).contains (jsId entry) then res ++ [jsId entry] else res)
        []).contains (jsId e))
      = ((b.map jsId).contains (jsId e)) := by
  have hmem : jsId e ∈ a.map jsId := List.mem_map_of_mem _ he
  have hiff : (jsId e ∈ b.foldl (fun res entry =>
      if (a.map jsId).contains (jsId entry) then res ++ [jsId entry] else res) [])
      ↔ jsId e ∈ b.map jsId := by
    rw [mem_foldl_append_if]
    constructor
    · rintro (h0 | ⟨x, hx, _, hfx⟩)
      · cases h0
      · exact hfx ▸ List.mem_map_of_mem _ hx
    · intro hbm
      obtain ⟨x, hxb, hfx⟩ := List.mem_map.1 hbm
      refine Or.inr ⟨x, hxb, ?_, hfx⟩
      rw [hfx]
      exact List.elem_iff.2 hmem
  refine Bool.coe_iff_coe.1 ?_
  constructor
  · intro ht
    exact List.elem_iff.2 (hiff.1 (List.elem_iff.1 ht))
  · intro ht
    exact List.elem_iff.2 (hiff.2 (List.elem_iff.1 ht))

theorem intersectResults_eq (a b : List Rec) (h : a ≠ []) :
    intersectResults a b = intersectById a b := by
  have hlen : a.length ≠ 0 := fun hl => h (List.length_eq_zero.1 hl)
  rw [intersectResults, intersectById]
  simp only [hlen, if_true, ne_eq, not_false_eq_true]
  exact List.filter_congr (fun e he => contains_commonIds a b e he)

theorem handleSimpleQuery_gt (records : List Rec) (F : String) (a : Value) :
    handleSimpleQuery records (some "$gt") [("$gt", CmpVal.scalar a)] F
      = .ok (filterGt records F a) := by
  have h : handleSimpleQuery records (some "$gt") [("$gt", CmpVal.scalar a)] F
      = filterE (fun entry => jsGtOp (getField entry F) (CmpVal.scalar a)) records := rfl
  rw [h, filterGt]
  exact filterE_pure _ _ (fun x => rfl) records

theorem handleSimpleQuery_lt (records : List Rec) (F : String) (b : Value) :
    handleSimpleQuery records (some "$lt") [("$lt", CmpVal.scalar b)] F
      = .ok (filterLt records F b) := by
  have h : handleSimpleQuery records (some "$lt") [("$lt", CmpVal.scalar b)] F
      = filterE (fun entry => jsLtOp (getField entry F) (CmpVal.scalar b)) records := rfl
  rw [h, filterLt]
  exact filterE_pure _ _ (fun x => rfl) records

theorem handleSimpleQuery_eq (records : List Rec) (F : String) (a : Value) :
    handleSimpleQuery records (some "$eq") [("$eq", CmpVal.scalar a)] F
      = .ok (filterEq records F a) := by
  have h : handleSimpleQuery records (some "$eq") [("$eq", CmpVal.scalar a)] F
      = filterE (fun entry => jsEqOp (getField entry F) (CmpVal.scalar a)) records := rfl
  rw [h, filterEq]
  exact filterE_pure _ _ (fun x => rfl) records

theorem handleSetQuery_and_gt_lt (records : List Rec) (F : String) (a b : Value) :
    handleSetQuery records "$and"
        [[(F, [("$gt", CmpVal.scalar a)])], [(F, [("$lt", CmpVal.scalar b)])]]
      = .ok (intersectResults (filterGt records F a) (filterLt records F b)) := by
  simp [handleSetQuery, List.foldlM_cons, List.foldlM_nil,
    handleSimpleQuery_gt, handleSimpleQuery_lt, intersectResults_nil]
  rfl

theorem handleSetQuery_or_eq_eq (records : List Rec) (F : String) (a b : Value) :
    handleSetQuery records "$or"
        [[(F, [("$eq", CmpVal.scalar a)])], [(F, [("$eq", CmpVal.scalar b)])]]
      = .ok (uniteResults (uniteResults [] (filterEq records F a)) (filterEq records F b)) := by
  simp [handleSetQuery, List.foldlM_cons, List.foldlM_nil, handleSimpleQuery_eq]
  rfl

theorem uniteResults_nil (b : List Rec) : uniteResults [] b = b := by
  rw [uniteResults_eq, uniteById]
  simp

theorem find_one_and (dec : String → Except String Rec) (text : String) (fts : List String)
    (qs : List (List (String × SubQ))) (records L : List Rec)
    (hload : loadDatabase dec text = .ok records) (hne : records ≠ [])
    (hset : handleSetQuery records "$and" qs = .ok L) :
    find dec text fts [("$and", QVal.set qs)] none = .ok L := by
  rw [find, hload]
  simp [handleQuery, hset, List.length_eq_zero, hne]

theorem find_one_or (dec : String → Except String Rec) (text : String) (fts : List String)
    (qs : List (List (String × SubQ))) (records L : List Rec)
    (hload : loadDatabase dec text = .ok records) (hne : records ≠ [])
    (hset : handleSetQuery records "$or" qs = .ok L) :
    find dec text fts [("$or", QVal.set qs)] none = .ok L := by
  rw [find, hload]
  simp [handleQuery, hset, List.length_eq_zero, hne]

/-! ## C1 -/

/-- C1 (counterexample): with the one-record collection loaded from
`fileA`, the query `(and: [(F: (gt: 10)), (F: (lt: 100))])` does NOT
return the intersection-by-`_id` of the two independent filter results:
the `gt`-filter is empty, the intersection is therefore empty, yet `find`
returns the `lt`-filter's record, because `intersectResults` treats an
empty accumulator as "no prior fold" and replaces it by the new result. -/
theorem and_intersection_law_counterexample :
    loadDatabase decEx fileA = .ok [recA]
    ∧ filterGt [recA] "F" (Value.num 10) = []
    ∧ filterLt [recA] "F" (Value.num 100) = [recA]
    ∧ intersectById (filterGt [recA] "F" (Value.num 10)) (filterLt [recA] "F" (Value.num 100)) = []
    ∧ find decEx fileA [] (andGtLtQuery "F" (Value.num 10) (Value.num 100)) none = .ok [recA]
    ∧ find decEx fileA [] (andGtLtQuery "F" (Value.num 10) (Value.num 100)) none
        ≠ .ok (intersectById (filterGt [recA] "F" (Value.num 10))
            (filterLt [recA] "F" (Value.num 100))) := by
  refine ⟨rfl, rfl, rfl, rfl, rfl, ?_⟩
  intro h
  rw [show find decEx fileA [] (andGtLtQuery "F" (Value.num 10) (Value.num 100)) none
      = .ok [recA] from rfl] at h
  rw [show intersectById (filterGt [recA] "F" (Value.num 10))
      (filterLt [recA] "F" (Value.num 100)) = [] from rfl] at h
  simp at h

/-- C1 (amended): for every loaded collection, field `F` and values `a`,
`b`, PROVIDED the independent `gt`-`a` filter result is non-empty, the set
query `(and: [(F: (gt: a)), (F: (lt: b))])` evaluated by `find` returns
exactly the intersection by the `_id` field of the two independent filter
results.  (Without that proviso the claim fails: an empty first filter
makes `find` return the second filter's records unfiltered.) -/
theorem and_intersection_law_amended
    (dec : String → Except String Rec) (text : String) (fts : List String)
    (F : String) (a b : Value) (records : List Rec)
    (hload : loadDatabase dec text = .ok records)
    (hne : filterGt records F a ≠ []) :
    find dec text fts (andGtLtQuery F a b) none
      = .ok (intersectById (filterGt records F a) (filterLt records F b)) := by
  have hrecne : records ≠ [] := by
    intro h
    rw [h] at hne
    exact hne rfl
  have hset : handleSetQuery records "$and"
      [[(F, [("$gt", CmpVal.scalar a)])], [(F, [("$lt", CmpVal.scalar b)])]]
      = .ok (intersectById (filterGt records F a) (filterLt records F b)) := by
    rw [handleSetQuery_and_gt_lt, intersectResults_eq _ _ hne]
  exact find_one_and dec text fts _ records _ hload hrecne hset

/-- C1 (witness): the amended law applied to a two-record collection with
a non-empty `gt`-filter. -/
theorem and_intersection_law_witness :
    find decEx fileAB [] (andGtLtQuery "F" (Value.num 1) (Value.num 100)) none
      = .ok (intersectById (filterGt [recA, recB] "F" (Value.num 1))
          (filterLt [recA, recB] "F" (Value.num 100))) :=
  and_intersection_law_amended decEx fileAB [] "F" (Value.num 1) (Value.num 100)
    [recA, recB] rfl (by decide)

/-! ## C2 -/

theorem nodup_ids_uniteById (records : List Rec) (p q : Rec → Bool)
    (hnod : (records.map jsId).Nodup) :
    ((uniteById (records.filter p) (records.filter q)).map jsId).Nodup := by
  rw [uniteById, List.map_append]
  have h1 : ((records.filter p).map jsId).Sublist (records.map jsId) :=
    (List.filter_sublist records).map jsId
  have h2 : (((records.filter q).filter
      (fun r => !(((records.filter p).map jsId).contains (jsId r)))).map jsId).Sublist
      (records.map jsId) :=
    (((List.filter_sublist _).trans (List.filter_sublist records)).map jsId)
  refine List.Nodup.append (hnod.sublist h1) (hnod.sublist h2) ?_
  intro x hx1 hx2
  obtain ⟨e, he, hid⟩ := List.mem_map.1 hx2
  have hw := (List.mem_filter.1 he).2
  rw [Bool.not_eq_true'] at hw
  have hcon : ((records.filter p).map jsId).contains (jsId e) = true :=
    List.elem_iff.2 (hid.symm ▸ hx1)
  rw [hw] at hcon
  exact Bool.false_ne_true hcon

theorem mem_uniteById_filter (records : List Rec) (p q : Rec → Bool)
    (hnod : (records.map jsId).Nodup) (r : Rec) :
    r ∈ uniteById (records.filter p) (records.filter q)
      ↔ (r ∈ records ∧ (p r = true ∨ q r = true)) := by
  rw [uniteById, List.mem_append]
  constructor
  · rintro (h | h)
    · obtain ⟨hmem, hp⟩ := List.mem_filter.1 h
      exact ⟨hmem, Or.inl hp⟩
    · obtain ⟨hq2, _⟩ := List.mem_filter.1 h
      obtain ⟨hmem, hq⟩ := List.mem_filter.1 hq2
      exact ⟨hmem, Or.inr hq⟩
  · rintro ⟨hmem, hp | hq⟩
    · exact Or.inl (List.mem_filter.2 ⟨hmem, hp⟩)
    · by_cases hc : ((records.filter p).map jsId).contains (jsId r) = true
      · obtain ⟨r', hr'f1, hid⟩ := List.mem_map.1 (List.elem_iff.1 hc)
        have hr'rec : r' ∈ records := (List.mem_filter.1 hr'f1).1
        have heq : r' = r := List.inj_on_of_nodup_map hnod hr'rec hmem hid
        exact Or.inl (heq ▸ hr'f1)
      · refine Or.inr (List.mem_filter.2 ⟨List.mem_filter.2 ⟨hmem, hq⟩, ?_⟩)
        rw [Bool.not_eq_true] at hc
        rw [hc]
        rfl

/-- C2: for a loaded collection with pairwise distinct identities and
distinct comparison values `a ≠ b`, the set query
`(or: [(F: (eq: a)), (F: (eq: b))])` returns the first branch's records
followed by the second branch's records whose identity was not already
seen (so the union is not re-sorted and keeps the first-seen record on an
identity collision), the result has no two records with the same `_id`,
and a record is returned exactly when it belongs to the collection and
matches one of the two branches. -/
theorem or_union_law
    (dec : String → Except String Rec) (text : String) (fts : List String)
    (F : String) (a b : Value) (records : List Rec)
    (hload : loadDatabase dec text = .ok records)
    (hnod : (records.map jsId).Nodup)
    (hab : a ≠ b) :
    find dec text fts (orEqEqQuery F a b) none
      = .ok (uniteById (filterEq records F a) (filterEq records F b))
    ∧ ((uniteById (filterEq records F a) (filterEq records F b)).map jsId).Nodup
    ∧ (∀ r, r ∈ uniteById (filterEq records F a) (filterEq records F b)
        ↔ (r ∈ records ∧ (getField r F = some a ∨ getField r F = some b))) := by
  refine ⟨?_, ?_, ?_⟩
  · by_cases hrec : records = []
    · subst hrec
      rw [find, hload]
      simp [uniteById, filterEq]
    · have hset := handleSetQuery_or_eq_eq records F a b
      rw [uniteResults_nil, uniteResults_eq] at hset
      rw [orEqEqQuery]
      exact find_one_or dec text fts _ records _ hload hrec hset
  · exact nodup_ids_uniteById records _ _ hnod
  · intro r
    simpa [filterEq] using mem_uniteById_filter records
      (fun e => getField e F = some a) (fun e => getField e F = some b) hnod r

/-- C2 (witness): the union law on the two-record collection of
`fileAB` with values 5 and 6. -/
theorem or_union_law_witness :
    find decEx fileAB [] (orEqEqQuery "F" (Value.num 5) (Value.num 6)) none
      = .ok (uniteById (filterEq [recA, recB] "F" (Value.num 5))
          (filterEq [recA, recB] "F" (Value.num 6)))
    ∧ ((uniteById (filterEq [recA, recB] "F" (Value.num 5))
        (filterEq [recA, recB] "F" (Value.num 6))).map jsId).Nodup
    ∧ (∀ r, r ∈ uniteById (filterEq [recA, recB] "F" (Value.num 5))
        (filterEq [recA, recB] "F" (Value.num 6))
        ↔ (r ∈ [recA, recB]
            ∧ (getField r "F" = some (Value.num 5) ∨ getField r "F" = some (Value.num 6)))) :=
  or_union_law decEx fileAB [] "F" (Value.num 5) (Value.num 6) [recA, recB]
    rfl (by decide) (by decide)

/-! ## C3 and C4 -/

theorem loadRows_error (dec : String → Except String Rec) (rows : List String)
    (row msg : String) (hrow : row ∈ rows) (hmark : row.data.head? = some 'E')
    (hdec : dec (row.drop 1) = .error msg) :
    ∃ e, loadRows dec rows = .error e := by
  induction rows with
  | nil => cases hrow
  | cons x xs ih =>
    rw [loadRows]
    by_cases hx : x.data.head? = some 'E'
    · rw [if_pos hx]
      rcases hdx : dec (x.drop 1) with e | r
      · exact ⟨e, rfl⟩
      · rcases List.mem_cons.1 hrow with rfl | hrow'
        · rw [hdx] at hdec
          cases hdec
        · obtain ⟨e, he⟩ := ih hrow'
          rw [he]
          exact ⟨e, rfl⟩
    · rw [if_neg hx]
      rcases List.mem_cons.1 hrow with rfl | hrow'
      · exact absurd hmark hx
      · exact ih hrow'

/-- C3: if some line of the backing file starting with the marker `E` has
a payload the codec rejects, the whole `find` call fails with a propagated
error — no partial result, hence no records from well-formed lines are
delivered. -/
theorem decode_error_aborts_find
    (dec : String → Except String Rec) (text : String) (fts : List String)
    (query : Query) (opts : Option QueryOptions) (row msg : String)
    (hrow : row ∈ jsSplit '\n' text)
    (hmark : row.data.head? = some 'E')
    (hdec : dec (row.drop 1) = .error msg) :
    ∃ e, find dec text fts query opts = .error e := by
  obtain ⟨e, he⟩ := loadRows_error dec (jsSplit '\n' text) row msg hrow hmark hdec
  have hld : loadDatabase dec text = .error e := by
    rw [loadDatabase]
    exact he
  exact ⟨e, by rw [find, hld]⟩

/-- C3 (witness): the malformed second line of `fileBad` makes the whole
query call fail even though the first line is well-formed. -/
theorem decode_error_aborts_find_witness :
    ∃ e, find decEx fileBad [] [] none = .error e :=
  decode_error_aborts_find decEx fileBad [] [] none "Eoops"
    "SyntaxError: Unexpected token" (by decide) (by decide) (by rfl)

theorem loadRows_eq (dec : String → Except String Rec) (rows : List String) :
    loadRows dec rows
      = mapE (fun row => dec (row.drop 1))
          (rows.filter (fun row => row.data.head? = some 'E')) := by
  induction rows with
  | nil => rfl
  | cons x xs ih =>
    rw [loadRows, ih, List.filter_cons]
    by_cases hx : x.data.head? = some 'E'
    · rw [if_pos hx]
      simp only [hx, decide_True, if_true]
      rw [mapE]
      cases hdx : dec (x.drop 1) with
      | error e => rfl
      | ok r =>
        cases hm : mapE (fun row => dec (row.drop 1))
            (List.filter (fun row => decide (row.data.head? = some 'E')) xs) with
        | error e => rfl
        | ok rs => rfl
    · rw [if_neg hx]
      simp [hx]

/-- C4: `loadDatabase` decodes exactly the lines whose first character is
the marker `E` (each with its first character removed), silently skips all
other lines, and preserves the file's line order; on the spec's scenario
file (`E...1...`, `D...`, `E...2...`) it yields the two records with ids
1 and 2 in that order. -/
theorem loadDatabase_marker_lines_law :
    (∀ (dec : String → Except String Rec) (text : String),
      loadDatabase dec text
        = mapE (fun row => dec (row.drop 1))
            ((jsSplit '\n' text).filter (fun row => row.data.head? = some 'E')))
    ∧ loadDatabase decEx fileScenario = .ok [recS1, recS2] :=
  ⟨fun dec text => by rw [loadDatabase]; exact loadRows_eq dec _, rfl⟩

/-! ## C5 and C6 -/

theorem any_contains_comm (a b : List String) :
    a.any (fun w => b.contains w) = b.any (fun t => a.contains t) := by
  refine Bool.coe_iff_coe.1 ?_
  simp only [List.any_eq_true]
  constructor
  · rintro ⟨x, hxA, hxB⟩
    exact ⟨x, List.elem_iff.1 hxB, List.elem_iff.2 hxA⟩
  · rintro ⟨x, hxB, hxA⟩
    exact ⟨x, List.elem_iff.1 hxA, List.elem_iff.2 hxB⟩

/-- C5: the full-text query returns exactly the records for which at least
one lowercase, space-split token of the search phrase occurs among the
lowercase, space-split tokens of the space-joined concatenation of the
record's full-text-eligible field values (any-token overlap); in
particular a record with field value "Blue Whale" matches the search
"whale shark" but not "orca". -/
theorem text_query_token_overlap :
    (∀ (fts : List String) (records : List Rec) (phrase : String),
      handleTextQuery fts records phrase = records.filter (specTextMatch fts phrase))
    ∧ handleTextQuery ["name"] [recBlue] "whale shark" = [recBlue]
    ∧ handleTextQuery ["name"] [recBlue] "orca" = [] := by
  refine ⟨?_, rfl, rfl⟩
  intro fts records phrase
  simp only [handleTextQuery]
  refine List.filter_congr ?_
  intro e he
  rw [specTextMatch]
  exact any_contains_comm _ _

/-- C6: on a non-empty loaded collection, `find` with the empty query
document and no options returns every record unchanged in the original
load order. -/
theorem empty_query_returns_all
    (dec : String → Except String Rec) (text : String) (fts : List String)
    (records : List Rec)
    (hload : loadDatabase dec text = .ok records) (hne : records ≠ []) :
    find dec text fts [] none = .ok records := by
  rw [find, hload]
  simp [List.length_eq_zero, hne]

/-- C6 (witness): the empty query on the two-record file. -/
theorem empty_query_returns_all_witness :
    find decEx fileAB [] [] none = .ok [recA, recB] :=
  empty_query_returns_all decEx fileAB [] [recA, recB] rfl (by decide)

/-! ## C7 -/

theorem mem_recKeys_jsMerge (a b : Rec) (k : String) :
    k ∈ recKeys (jsMerge a b) ↔ (k ∈ recKeys a ∨ k ∈ recKeys b) := by
  simp only [jsMerge, recKeys, List.map_append, List.mem_append, List.map_map,
    List.mem_map, List.mem_filter, Function.comp_apply]
  constructor
  · rintro (⟨p, hp, hk⟩ | ⟨p, ⟨hpb, _⟩, hk⟩)
    · exact Or.inl ⟨p, hp, hk⟩
    · exact Or.inr ⟨p, hpb, hk⟩
  · rintro (⟨p, hp, hk⟩ | ⟨p, hpb, hk⟩)
    · exact Or.inl ⟨p, hp, hk⟩
    · by_cases ha : ∃ p' ∈ a, p'.1 = k
      · obtain ⟨p', hp', hk'⟩ := ha
        exact Or.inl ⟨p', hp', hk'⟩
      · refine Or.inr ⟨p, ⟨hpb, ?_⟩, hk⟩
        have hcf : (a.map Prod.fst).contains p.1 = false := by
          rw [hk]
          by_contra hc
          rw [Bool.not_eq_false] at hc
          obtain ⟨p', hp', hk'⟩ := List.mem_map.1 (List.elem_iff.1 hc)
          exact ha ⟨p', hp', hk'⟩
        rw [hcf]
        rfl

theorem mem_recKeys_pickKey (row : Rec) (kk k : String) :
    k ∈ recKeys (pickKey row kk) ↔ (k = kk ∧ kk ∈ recKeys row) := by
  rw [pickKey]
  rcases h : getField row kk with _ | v
  · simp only [recKeys, List.map_nil, List.not_mem_nil, false_iff]
    rintro ⟨rfl, hmem⟩
    obtain ⟨v, hv⟩ := (mem_recKeys_iff row k).1 hmem
    rw [h] at hv
    cases hv
  · simp only [recKeys, List.map_cons, List.map_nil, List.mem_singleton]
    constructor
    · intro hk
      exact ⟨hk, (mem_recKeys_iff row kk).2 ⟨v, h⟩⟩
    · exact fun hk => hk.1

theorem mem_recKeys_foldl_jsMerge (xs : List Rec) (x : Rec) (k : String) :
    k ∈ recKeys (xs.foldl jsMerge x) ↔ (k ∈ recKeys x ∨ ∃ o ∈ xs, k ∈ recKeys o) := by
  induction xs generalizing x with
  | nil => simp
  | cons y ys ih =>
    rw [List.foldl_cons, ih, mem_recKeys_jsMerge]
    constructor
    · rintro ((h | h) | ⟨o, ho, hk⟩)
      · exact Or.inl h
      · exact Or.inr ⟨y, List.mem_cons_self .., h⟩
      · exact Or.inr ⟨o, List.mem_cons_of_mem _ ho, hk⟩
    · rintro (h | ⟨o, ho, hk⟩)
      · exact Or.inl (Or.inl h)
      · rcases List.mem_cons.1 ho with rfl | ho
        · exact Or.inl (Or.inr hk)
        · exact Or.inr ⟨o, ho, hk⟩

/-- C7: for every record and non-empty projection specification,
`getProjection` succeeds and the projected record's key set is exactly the
requested field names intersected with the record's own keys (absent
requested fields are omitted, no non-requested key appears); consequently
every record a projecting `find` call returns has this key set relative to
the row it was built from. -/
theorem projection_key_set_law :
    (∀ (row : Rec) (keys : List String), keys ≠ [] →
      ∃ pr, getProjection row keys = .ok pr
        ∧ ∀ k, (k ∈ recKeys pr ↔ (k ∈ keys ∧ k ∈ recKeys row)))
    ∧ (∀ (dec : String → Except String Rec) (text : String) (fts : List String)
        (q : Query) (sortSpec : Option (List (String × Int))) (keys : List String)
        (L : List Rec), keys ≠ [] →
        find dec text fts q (some ⟨sortSpec, some keys⟩) = .ok L →
        ∀ p ∈ L, ∃ row, getProjection row keys = .ok p
          ∧ ∀ k, (k ∈ recKeys p ↔ (k ∈ keys ∧ k ∈ recKeys row))) := by
  have partA : ∀ (row : Rec) (keys : List String), keys ≠ [] →
      ∃ pr, getProjection row keys = .ok pr
        ∧ ∀ k, (k ∈ recKeys pr ↔ (k ∈ keys ∧ k ∈ recKeys row)) := by
    intro row keys hne
    rcases keys with _ | ⟨k0, rest⟩
    · exact absurd rfl hne
    · refine ⟨(rest.map (pickKey row)).foldl jsMerge (pickKey row k0), rfl, ?_⟩
      intro k
      rw [mem_recKeys_foldl_jsMerge, mem_recKeys_pickKey]
      constructor
      · rintro (⟨rfl, hk0⟩ | ⟨o, ho, hk⟩)
        · exact ⟨List.mem_cons_self .., hk0⟩
        · obtain ⟨kk, hkk, rfl⟩ := List.mem_map.1 ho
          obtain ⟨rfl, hkmem⟩ := (mem_recKeys_pickKey row kk k).1 hk
          exact ⟨List.mem_cons_of_mem _ hkk, hkmem⟩
      · rintro ⟨hmemk, hkrow⟩
        rcases List.mem_cons.1 hmemk with rfl | hkrest
        · exact Or.inl ⟨rfl, hkrow⟩
        · refine Or.inr ⟨pickKey row k, List.mem_map_of_mem _ hkrest, ?_⟩
          exact (mem_recKeys_pickKey row k k).2 ⟨rfl, hkrow⟩
  refine ⟨partA, ?_⟩
  intro dec text fts q sortSpec keys L hkeys hfind
  rw [find] at hfind
  rcases hld : loadDatabase dec text with e | records <;> rw [hld] at hfind <;>
    simp only [] at hfind
  · cases hfind
  · by_cases hrec : records.length = 0
    · rw [if_pos hrec] at hfind
      cases hfind
      intro p hp
      cases hp
    · rw [if_neg hrec] at hfind
      rcases hq : (if q.length = 0 then Except.ok records else handleQuery fts records q)
        with e | result <;> rw [hq] at hfind <;> simp only [] at hfind
      · cases hfind
      · have finishProj : ∀ (sorted : List Rec),
            mapE (fun row => getProjection row keys) sorted = .ok L →
            ∀ p ∈ L, ∃ row, getProjection row keys = .ok p
              ∧ ∀ k, (k ∈ recKeys p ↔ (k ∈ keys ∧ k ∈ recKeys row)) := by
          intro sorted h2 p hp
          obtain ⟨row, _, hgp⟩ := mapE_ok_mem _ _ _ h2 p hp
          obtain ⟨pr, hpr, hkeysiff⟩ := partA row keys hkeys
          rw [hgp] at hpr
          injection hpr with hh
          subst hh
          exact ⟨row, hgp, hkeysiff⟩
        rcases sortSpec with _ | s
        · exact finishProj result hfind
        · have hfind2 : mapE (fun row => getProjection row keys)
              (List.foldl (fun res p => jsSortPass p.1 p.2 res) result s) = Except.ok L := hfind
          exact finishProj _ hfind2

/-- C7 (witness): projecting the one-record row onto a present and an
absent field. -/
theorem projection_key_set_law_witness :
    ∃ pr, getProjection recA ["F", "zz"] = .ok pr
      ∧ ∀ k, (k ∈ recKeys pr ↔ (k ∈ ["F", "zz"] ∧ k ∈ recKeys recA)) :=
  projection_key_set_law.1 recA ["F", "zz"] (by decide)

/-! ## C8 -/

theorem charListLt_asymm : ∀ (a b : List Char),
    charListLt a b = true → charListLt b a = true → False
  | [], [], h1, _ => by cases h1
  | [], _ :: _, _, h2 => by rw [charListLt] at h2; cases h2
  | _ :: _, [], h1, _ => by rw [charListLt] at h1; cases h1
  | a :: as, b :: bs, h1, h2 => by
    rw [charListLt] at h1 h2
    by_cases hab : a < b
    · rw [if_neg (lt_asymm hab), if_pos hab] at h2
      cases h2
    · rw [if_neg hab] at h1
      by_cases hba : b < a
      · rw [if_pos hba] at h1
        cases h1
      · rw [if_neg hba] at h1
        rw [if_neg hba, if_neg hab] at h2
        exact charListLt_asymm as bs h1 h2

theorem valueGtB_asymm (x y : Value)
    (h1 : valueGtB x y = true) (h2 : valueGtB y x = true) : False := by
  rcases x with nx | sx | bx <;> rcases y with ny | sy | byy <;>
    simp only [valueGtB, jsToNum] at h1 h2
  · simp only [decide_eq_true_eq] at h1 h2
    omega
  · rcases hz : jsStrToInt sy with _ | z <;> rw [hz] at h1 h2 <;>
      simp only [decide_eq_true_eq] at h1 h2
    · cases h1
    · omega
  · cases byy <;> simp only [decide_eq_true_eq] at h1 h2 <;> omega
  · rcases hz : jsStrToInt sx with _ | z <;> rw [hz] at h1 h2 <;>
      simp only [decide_eq_true_eq] at h1 h2
    · cases h1
    · omega
  · exact charListLt_asymm _ _ h1 h2
  · rcases hz : jsStrToInt sx with _ | z <;> cases byy <;> rw [hz] at h1 h2 <;>
      simp only [decide_eq_true_eq] at h1 h2
    · cases h1
    · cases h1
    · omega
    · omega
  · cases bx <;> simp only [decide_eq_true_eq] at h1 h2 <;> omega
  · rcases hz : jsStrToInt sy with _ | z <;> cases bx <;> rw [hz] at h1 h2 <;>
      simp only [decide_eq_true_eq] at h1 h2
    · cases h1
    · cases h1
    · omega
    · omega
  · cases bx <;> cases byy <;> simp only [decide_eq_true_eq] at h1 h2 <;> omega

theorem optGtOO_asymm (a b : Option Value)
    (h1 : optGtOO a b = true) (h2 : optGtOO b a = true) : False := by
  rcases a with _ | x <;> rcases b with _ | y
  · simp [optGtOO] at h1
  · simp [optGtOO] at h1
  · simp [optGtOO] at h2
  · exact valueGtB_asymm x y h1 h2

theorem cmpRec_neg (F : String) (dir : Int) (a b : Rec) :
    cmpRec F dir b a = -cmpRec F dir a b := by
  rw [cmpRec, cmpRec]
  by_cases h1 : optGtOO (getField a F) (getField b F) = true
  · have h2 : ¬ optGtOO (getField b F) (getField a F) = true :=
      fun h2 => optGtOO_asymm _ _ h1 h2
    rw [if_pos h1, if_neg h2, if_pos h1]
  · by_cases h2 : optGtOO (getField b F) (getField a F) = true
    · rw [if_pos h2, if_neg h1, if_pos h2]
      omega
    · rw [if_neg h1, if_neg h2, if_neg h2, if_neg h1]
      omega

theorem chain'_orderedInsert {α : Type} (r : α → α → Prop) [DecidableRel r]
    (tot : ∀ a b, ¬ r a b → r b a) (a : α) :
    ∀ (l : List α), l.Chain' r → (List.orderedInsert r a l).Chain' r
  | [], _ => by simp
  | b :: l, h => by
    rw [List.orderedInsert]
    by_cases hr : r a b
    · rw [if_pos hr]
      exact List.chain'_cons.2 ⟨hr, h⟩
    · rw [if_neg hr]
      have hba := tot a b hr
      cases l with
      | nil =>
        simp only [List.orderedInsert]
        exact List.chain'_cons.2 ⟨hba, List.chain'_singleton a⟩
      | cons c l' =>
        have htail : (List.orderedInsert r a (c :: l')).Chain' r :=
          chain'_orderedInsert r tot a (c :: l') h.tail
        rw [List.orderedInsert]
        by_cases hrc : r a c
        · rw [if_pos hrc]
          exact List.chain'_cons.2 ⟨hba, List.chain'_cons.2 ⟨hrc, h.tail⟩⟩
        · rw [if_neg hrc]
          rw [List.orderedInsert, if_neg hrc] at htail
          exact List.chain'_cons.2 ⟨(List.chain'_cons.1 h).1, htail⟩

theorem chain'_insertionSort {α : Type} (r : α → α → Prop) [DecidableRel r]
    (tot : ∀ a b, ¬ r a b → r b a) : ∀ (l : List α), (List.insertionSort r l).Chain' r
  | [] => by simp
  | x :: xs => by
    rw [List.insertionSort]
    exact chain'_orderedInsert r tot x _ (chain'_insertionSort r tot xs)

theorem chain'_jsSortPass (F : String) (dir : Int) (l : List Rec) :
    (jsSortPass F dir l).Chain' (fun x y => cmpRec F dir x y ≤ 0) := by
  rw [jsSortPass]
  refine chain'_insertionSort _ ?_ l
  intro x y hxy
  have := cmpRec_neg F dir x y
  omega

theorem find_sorted_shape (dec : String → Except String Rec) (text : String)
    (fts : List String) (q : Query) (F : String) (dir : Int) (L : List Rec)
    (h : find dec text fts q (some ⟨some [(F, dir)], none⟩) = .ok L) :
    L = [] ∨ ∃ mid, L = jsSortPass F dir mid := by
  rw [find] at h
  rcases hld : loadDatabase dec text with e | records <;> rw [hld] at h <;> simp only [] at h
  · cases h
  · by_cases hrec : records.length = 0
    · rw [if_pos hrec] at h
      injection h with hh
      exact Or.inl hh.symm
    · rw [if_neg hrec] at h
      rcases hq : (if q.length = 0 then Except.ok records else handleQuery fts records q)
        with e | result <;> rw [hq] at h <;> simp only [] at h
      · cases h
      · have h2 : Except.ok (jsSortPass F dir result) = Except.ok L := h
        injection h2 with hh
        exact Or.inr ⟨result, hh.symm⟩

/-- C8: a `find` call with a single-key sort specification yields, for
direction ascending (1), a result sequence whose values of that field are
pairwise non-decreasing (no adjacent pair strictly decreases under the
comparator's `>`), and for direction descending (-1) a non-increasing
sequence. -/
theorem sort_direction_law (dec : String → Except String Rec) (text : String)
    (fts : List String) (q : Query) (F : String) (L L' : List Rec) :
    (find dec text fts q (some ⟨some [(F, 1)], none⟩) = .ok L →
      L.Chain' (fun x y => optGtOO (getField x F) (getField y F) = false))
    ∧ (find dec text fts q (some ⟨some [(F, -1)], none⟩) = .ok L' →
      L'.Chain' (fun x y => optGtOO (getField y F) (getField x F) = false)) := by
  constructor
  · intro h
    rcases find_sorted_shape dec text fts q F 1 L h with rfl | ⟨mid, rfl⟩
    · exact List.chain'_nil
    · refine (chain'_jsSortPass F 1 mid).imp ?_
      intro x y hxy
      by_contra hgt
      rw [Bool.not_eq_false] at hgt
      rw [cmpRec, if_pos hgt] at hxy
      omega
  · intro h
    rcases find_sorted_shape dec text fts q F (-1) L' h with rfl | ⟨mid, rfl⟩
    · exact List.chain'_nil
    · refine (chain'_jsSortPass F (-1) mid).imp ?_
      intro x y hxy
      by_contra hgt
      rw [Bool.not_eq_false] at hgt
      have hnxy : ¬ optGtOO (getField x F) (getField y F) = true :=
        fun hx => optGtOO_asymm _ _ hx hgt
      rw [cmpRec, if_neg hnxy, if_pos hgt] at hxy
      omega

/-- C8 (witness): sorting the two-record collection by `_id` in both
directions. -/
theorem sort_direction_law_witness :
    List.Chain' (fun x y => optGtOO (getField x "_id") (getField y "_id") = false)
      [recA, recB]
    ∧ List.Chain' (fun x y => optGtOO (getField y "_id") (getField x "_id") = false)
      [recB, recA] :=
  ⟨(sort_direction_law decEx fileAB [] [] "_id" [recA, recB] [recB, recA]).1 rfl,
   (sort_direction_law decEx fileAB [] [] "_id" [recA, recB] [recB, recA]).2 rfl⟩

/-! ## C9 -/

theorem handleSimpleQuery_error_msg (records : List Rec) (opKey : Option String)
    (sub : SubQ) (field msg : String)
    (h : handleSimpleQuery records opKey sub field = .error msg) :
    msg = "something went wrong" ∨ msg = "TypeError: filterFn is not a function"
      ∨ msg = "TypeError: valueToCompare.includes is not a function" := by
  rw [handleSimpleQuery] at h
  rcases h1 : opKey.bind (lookupA sub) with _ | v <;> rw [h1] at h
  · injection h with hh
    exact Or.inl hh.symm
  · rcases h2 : opKey.bind simpleOperations with _ | fn <;> rw [h2] at h
    · injection h with hh
      exact Or.inr (Or.inl hh.symm)
    · have hfn : fn = jsEqOp ∨ fn = jsGtOp ∨ fn = jsLtOp ∨ fn = jsInOp := by
        rcases opKey with _ | op
        · cases h2
        · have h3 : simpleOperations op = some fn := h2
          rw [simpleOperations] at h3
          by_cases e1 : op = "$eq"
          · rw [if_pos e1] at h3
            exact Or.inl (Option.some.inj h3).symm
          · rw [if_neg e1] at h3
            by_cases e2 : op = "$gt"
            · rw [if_pos e2] at h3
              exact Or.inr (Or.inl (Option.some.inj h3).symm)
            · rw [if_neg e2] at h3
              by_cases e3 : op = "$lt"
              · rw [if_pos e3] at h3
                exact Or.inr (Or.inr (Or.inl (Option.some.inj h3).symm))
              · rw [if_neg e3] at h3
                by_cases e4 : op = "$in"
                · rw [if_pos e4] at h3
                  exact Or.inr (Or.inr (Or.inr (Option.some.inj h3).symm))
                · rw [if_neg e4] at h3
                  cases h3
      obtain ⟨x, _, hpx⟩ := filterE_error_mem _ _ _ h
      rcases hfn with rfl | rfl | rfl | rfl
      · rcases v with v' | vs <;> simp [jsEqOp] at hpx
      · rcases v with v' | vs <;> simp [jsGtOp] at hpx
      · rcases v with v' | vs <;> simp [jsLtOp] at hpx
      · rcases v with v' | vs
        · rw [jsInOp] at hpx
          injection hpx with hh
          exact Or.inr (Or.inr hh.symm)
        · simp [jsInOp] at hpx

theorem perFieldStep_error_ne (records res : List Rec) (elem : String × QVal) (msg : String)
    (h : perFieldStep records res elem = .error msg) : msg ≠ "unhandled query format" := by
  obtain ⟨k, v⟩ := elem
  rw [perFieldStep] at h
  rcases v with s | qs | sub <;> simp only [] at h
  · injection h with hh
    subst hh
    decide
  · injection h with hh
    subst hh
    decide
  · split_ifs at h
    · rcases hs : handleSimpleQuery records ((sub.map Prod.fst).head?) sub k with e | r <;>
        rw [hs] at h
      · injection h with hh
        subst hh
        rcases handleSimpleQuery_error_msg _ _ _ _ _ hs with rfl | rfl | rfl <;> decide
      · cases h
    · rcases hs : handleSimpleQuery records ((sub.map Prod.fst).head?) sub k with e | r <;>
        rw [hs] at h
      · injection h with hh
        subst hh
        rcases handleSimpleQuery_error_msg _ _ _ _ _ hs with rfl | rfl | rfl <;> decide
      · cases h
    · injection h with hh
      subst hh
      decide

theorem foldlM_perFieldStep_ne_uqf (records : List Rec) (l : List (String × QVal))
    (init : List Rec) :
    l.foldlM (perFieldStep records) init ≠ .error "unhandled query format" := by
  induction l generalizing init with
  | nil =>
    intro h
    cases h
  | cons x xs ih =>
    intro h
    rw [List.foldlM_cons] at h
    rcases hs : perFieldStep records init x with e | r <;> rw [hs] at h
    · have h2 : (Except.error e : Except String (List Rec))
          = .error "unhandled query format" := h
      injection h2 with hh
      exact perFieldStep_error_ne records init x e hs hh
    · have h2 : xs.foldlM (perFieldStep records) r = .error "unhandled query format" := h
      exact ih r h2

theorem getProjection_error_msg (row : Rec) (keys : List String) (msg : String)
    (h : getProjection row keys = .error msg) :
    msg = "TypeError: Reduce of empty array with no initial value" := by
  rw [getProjection] at h
  rcases keys with _ | ⟨k, ks⟩
  · simp only [List.map_nil] at h
    injection h with hh
    exact hh.symm
  · simp only [List.map_cons] at h
    cases h

theorem handleQuery_perfield_ne_uqf (fts : List String) (k : String) (v : QVal)
    (qrest : Query) (r0 : Rec) (rest : List Rec)
    (hk1 : k ≠ "$text") (hk2 : k ≠ "$and") (hk3 : k ≠ "$or")
    (hmem : k ∈ recKeys r0) :
    handleQuery fts (r0 :: rest) ((k, v) :: qrest) ≠ .error "unhandled query format" := by
  rcases v with s | qs | sub
  all_goals
    rw [handleQuery]
    rw [if_neg hk1, if_neg (by rintro (h | h); exacts [hk2 h, hk3 h])]
    rw [if_pos (List.elem_iff.2 hmem)]
    exact foldlM_perFieldStep_ne_uqf (r0 :: rest) _ []
    all_goals intro a heq
    all_goals cases heq

theorem find_perfield_ne_uqf (dec : String → Except String Rec) (text : String)
    (fts : List String) (k : String) (v : QVal) (qrest : Query)
    (opts : Option QueryOptions) (r0 : Rec) (rest : List Rec)
    (hload : loadDatabase dec text = .ok (r0 :: rest))
    (hk1 : k ≠ "$text") (hk2 : k ≠ "$and") (hk3 : k ≠ "$or")
    (hmem : k ∈ recKeys r0) :
    find dec text fts ((k, v) :: qrest) opts ≠ .error "unhandled query format" := by
  rw [find, hload]
  intro h
  simp only [] at h
  rw [if_neg (by simp)] at h
  rw [if_neg (by simp : ¬((k, v) :: qrest).length = 0)] at h
  rcases hq : handleQuery fts (r0 :: rest) ((k, v) :: qrest) with e | result <;> rw [hq] at h
  · simp only [] at h
    injection h with hh
    exact handleQuery_perfield_ne_uqf fts k v qrest r0 rest hk1 hk2 hk3 hmem (by rw [hq, hh])
  · simp only [] at h
    rcases opts with _ | ⟨s, p⟩
    · cases h
    · rcases p with _ | fields
      · rcases s with _ | spec
        · cases h
        · cases h
      · rcases s with _ | spec
        · have h2 : mapE (fun row => getProjection row fields) result
              = .error "unhandled query format" := h
          obtain ⟨x, _, hx⟩ := mapE_error_mem _ _ _ h2
          have := getProjection_error_msg _ _ _ hx
          exact absurd this (by decide)
        · have h2 : mapE (fun row => getProjection row fields)
              (spec.foldl (fun res p => jsSortPass p.1 p.2 res) result)
              = .error "unhandled query format" := h
          obtain ⟨x, _, hx⟩ := mapE_error_mem _ _ _ h2
          have := getProjection_error_msg _ _ _ hx
          exact absurd this (by decide)

/-- C9: when the collection is non-empty and the first top-level query key
is neither the full-text marker nor a set operator, per-field dispatch
succeeds exactly when that key is a field of the FIRST loaded record:
`find` raises the `'unhandled query format'` error iff the key is absent
from the first record — even when the key is a field of a later record. -/
theorem first_record_dispatch_law (dec : String → Except String Rec) (text : String)
    (fts : List String) (k : String) (v : QVal) (qrest : Query)
    (opts : Option QueryOptions) (r0 : Rec) (rest : List Rec)
    (hload : loadDatabase dec text = .ok (r0 :: rest))
    (hk1 : k ≠ "$text") (hk2 : k ≠ "$and") (hk3 : k ≠ "$or") :
    (find dec text fts ((k, v) :: qrest) opts = .error "unhandled query format"
      ↔ ¬ k ∈ recKeys r0) := by
  constructor
  · intro h hmem
    exact find_perfield_ne_uqf dec text fts k v qrest opts r0 rest hload hk1 hk2 hk3 hmem h
  · intro hnmem
    rcases v with s | qs | sub
    all_goals
      rw [find, hload]
      simp only []
      rw [if_neg (by simp)]
      rw [if_neg (by simp)]
      rw [handleQuery]
      rw [if_neg hk1, if_neg (by rintro (h | h); exacts [hk2 h, hk3 h])]
      rw [if_neg (fun hc => hnmem (List.elem_iff.1 hc))]
      all_goals intro a heq
      all_goals cases heq

/-- C9 (witness): `tag` is a field of the second loaded record but not of
the first, and the per-field query on `tag` raises the
unhandled-query-format error. -/
theorem first_record_dispatch_law_witness :
    (find decEx fileAB [] [("tag", QVal.sub [("$eq", CmpVal.scalar (.str "x"))])] none
       = .error "unhandled query format")
    ∧ "tag" ∈ recKeys recB :=
  ⟨(first_record_dispatch_law decEx fileAB [] "tag"
      (QVal.sub [("$eq", CmpVal.scalar (.str "x"))]) [] none recA [recB] rfl
      (by decide) (by decide) (by decide)).2 (by decide),
   by decide⟩

/-! ## C10 -/

/-- C10: a `find` call whose query evaluation yields at least one result
record fails with the thrown `reduce`-of-empty-array error when the
supplied projection object has no field names, whereas the same call with
an empty query result returns the empty sequence. -/
theorem empty_projection_law (dec : String → Except String Rec) (text : String)
    (fts : List String) (q : Query) (s : Option (List (String × Int))) (L : List Rec)
    (h : find dec text fts q (some ⟨s, none⟩) = .ok L) :
    (L ≠ [] → find dec text fts q (some ⟨s, some []⟩)
        = .error "TypeError: Reduce of empty array with no initial value")
    ∧ (L = [] → find dec text fts q (some ⟨s, some []⟩) = .ok []) := by
  rw [find] at h
  rw [find]
  rcases hld : loadDatabase dec text with e | records <;> rw [hld] at h <;>
    simp only [] at h ⊢
  · cases h
  · by_cases hrec : records.length = 0
    · rw [if_pos hrec] at h ⊢
      injection h with hh
      constructor
      · intro hne
        exact absurd hh.symm hne
      · intro _
        rfl
    · rw [if_neg hrec] at h ⊢
      rcases hq : (if q.length = 0 then Except.ok records else handleQuery fts records q)
        with e | result <;> rw [hq] at h <;> simp only [] at h ⊢
      · cases h
      · rcases s with _ | spec
        · have h2 : Except.ok result = Except.ok L := h
          injection h2 with hh
          subst hh
          constructor
          · intro hne
            show mapE (fun row => getProjection row []) result
              = .error "TypeError: Reduce of empty array with no initial value"
            rcases hres : result with _ | ⟨r, rs⟩
            · exact absurd hres hne
            · rfl
          · intro hL
            show mapE (fun row => getProjection row []) result = .ok []
            rw [hL]
            rfl
        · have h2 : Except.ok (spec.foldl (fun res p => jsSortPass p.1 p.2 res) result)
              = Except.ok L := h
          injection h2 with hh
          constructor
          · intro hne
            have hne' : spec.foldl (fun res p => jsSortPass p.1 p.2 res) result ≠ [] := by
              rw [hh]
              exact hne
            show mapE (fun row => getProjection row [])
                (spec.foldl (fun res p => jsSortPass p.1 p.2 res) result)
              = .error "TypeError: Reduce of empty array with no initial value"
            rcases hS : spec.foldl (fun res p => jsSortPass p.1 p.2 res) result
              with _ | ⟨r, rs⟩
            · exact absurd hS hne'
            · rw [hS]
              rfl
          · intro hL
            show mapE (fun row => getProjection row [])
                (spec.foldl (fun res p => jsSortPass p.1 p.2 res) result) = .ok []
            rw [hh, hL]
            rfl

/-- C10 (witness): the empty projection object over the one-record result
of the empty query. -/
theorem empty_projection_law_witness :
    find decEx fileA [] [] (some ⟨none, some []⟩)
      = .error "TypeError: Reduce of empty array with no initial value" :=
  (empty_projection_law decEx fileA [] [] none [recA] rfl).1 (by decide)

end TsDb
